import Mathlib

/-!
Shallow embedding of the Nova Defense simulation core.

Source: the `GameCanvas` component (file `part_000`: the `animate` frame
function and `handleCanvasClick`) together with the shared `types` module
(file `part_002`: entity records and `GAME_CONFIG`).

Modelling conventions:
* JavaScript `number` values are modelled as exact rationals (`ℚ`); the
  integer-valued score and ammo counters are modelled as `Int`.
* The `id` field of every entity is a random string that the game logic
  never reads; it is omitted from the records.
* `Math.random()` draws are passed in explicitly (`FrameRnd`), each a
  rational in `[0, 1)`.
* `Array.prototype.filter` iterates over the indices `0 .. len-1` fixed
  before the first callback runs, and its result contains only elements
  from that range; elements pushed onto the array during the iteration
  are not visited and do not occur in the result.  `explosionsPass`
  models the frame's step 4, where the collision callback pushes
  secondary explosions onto the very array being filtered and the array
  reference is then replaced by the filter result: those pushed
  secondaries are returned separately (they never reach the next frame's
  collection).
* `Math.sqrt (dx*dx + dy*dy) < r`  is embedded as
  `0 < r ∧ dx*dx + dy*dy < r*r`, which is equivalent over the reals
  because the square root is nonnegative and squaring is strictly
  monotone on nonnegatives.
-/

namespace NovaDefense

structure Point where
  x : ℚ
  y : ℚ
deriving DecidableEq

instance : Inhabited Point := ⟨⟨0, 0⟩⟩

/-- `EnemyRocket` and `InterceptorMissile` have identical fields in the
source (`start`, `pos`, `target`, `speed`, `progress`); both are embedded
as `Projectile`. -/
structure Projectile where
  start : Point
  pos : Point
  target : Point
  speed : ℚ
  progress : ℚ
deriving DecidableEq

structure Explosion where
  pos : Point
  radius : ℚ
  maxRadius : ℚ
  growing : Bool
  alpha : ℚ
deriving DecidableEq

structure City where
  pos : Point
  active : Bool
deriving DecidableEq

structure Battery where
  pos : Point
  active : Bool
  missiles : Int
  maxMissiles : Int
deriving DecidableEq

/-! `GAME_CONFIG` constants from the types module. -/

def WIN_SCORE : Int := 1000
def ROCKET_SCORE : Int := 20
def EXPLOSION_SPEED : ℚ := 2
def EXPLOSION_MAX_RADIUS : ℚ := 40
def MISSILE_SPEED : ℚ := 0.02
def ROCKET_SPEED_MIN : ℚ := 0.0004
def ROCKET_SPEED_MAX : ℚ := 0.0008
def MAX_ROCKETS : Nat := 75
def SPAWN_RATE : ℚ := 0.01

/-- Step 2/3 kinematics: `progress += speed` and the unclamped linear
interpolation of `pos` between `start` and `target` at the new progress. -/
def moveProjectile (r : Projectile) : Projectile :=
  let p := r.progress + r.speed
  { r with
    progress := p
    pos := ⟨r.start.x + (r.target.x - r.start.x) * p,
            r.start.y + (r.target.y - r.start.y) * p⟩ }

/-- Explosion record as pushed by the source; `radius 0`, `growing`,
`alpha 1`, centred at `p` with the given `maxRadius`. -/
def mkExplosion (p : Point) (maxR : ℚ) : Explosion :=
  { pos := p, radius := 0, maxRadius := maxR, growing := true, alpha := 1 }

/-- Rocket impact side effect: every active city / battery whose
horizontal distance to the impact target x is below 5 px is deactivated
(the test reads only the x coordinates). -/
def deactivateNear (tx : ℚ) (cs : List City) (bs : List Battery) :
    List City × List Battery :=
  (cs.map fun c => if c.active ∧ |c.pos.x - tx| < 5 then { c with active := false } else c,
   bs.map fun b => if b.active ∧ |b.pos.x - tx| < 5 then { b with active := false } else b)

/-- Step 2: update each enemy rocket in order; a rocket whose updated
progress is ≥ 1 is removed, pushes a full-size explosion at its target
and deactivates nearby ground entities.  Returns
(surviving rockets, cities, batteries, pushed explosions). -/
def rocketsPass : List Projectile → List City → List Battery →
    List Projectile × List City × List Battery × List Explosion
  | [], cs, bs => ([], cs, bs, [])
  | r :: rest, cs, bs =>
    let r' := moveProjectile r
    if 1 ≤ r'.progress then
      let g := deactivateNear r'.target.x cs bs
      let res := rocketsPass rest g.1 g.2
      (res.1, res.2.1, res.2.2.1, mkExplosion r'.target EXPLOSION_MAX_RADIUS :: res.2.2.2)
    else
      let res := rocketsPass rest cs bs
      (r' :: res.1, res.2.1, res.2.2.1, res.2.2.2)

/-- Step 3: update each interceptor missile; one reaching progress ≥ 1 is
removed and pushes a full-size explosion at its target (no ground
effects).  Returns (surviving missiles, pushed explosions). -/
def missilesPass : List Projectile → List Projectile × List Explosion
  | [] => ([], [])
  | m :: rest =>
    let m' := moveProjectile m
    if 1 ≤ m'.progress then
      let res := missilesPass rest
      (res.1, mkExplosion m'.target EXPLOSION_MAX_RADIUS :: res.2)
    else
      let res := missilesPass rest
      (m' :: res.1, res.2)

/-- Per-frame explosion update: growing blasts gain `EXPLOSION_SPEED`
radius and flip to shrinking once radius ≥ maxRadius; shrinking blasts
lose half that rate and 0.02 alpha. -/
def updateExplosion (e : Explosion) : Explosion :=
  if e.growing then
    let r := e.radius + EXPLOSION_SPEED
    { e with radius := r, growing := decide (r < e.maxRadius) }
  else
    { e with radius := e.radius - EXPLOSION_SPEED * 0.5, alpha := e.alpha - 0.02 }

/-- `Math.sqrt (dx*dx + dy*dy) < e.radius`, embedded without the square
root (see the module comment). -/
def blastHits (e : Explosion) (r : Projectile) : Bool :=
  let dx := r.pos.x - e.pos.x
  let dy := r.pos.y - e.pos.y
  decide (0 < e.radius) && decide (dx * dx + dy * dy < e.radius * e.radius)

/-- The inner rocket filter of step 4 for one blast: rockets inside the
blast radius are removed, each adding `ROCKET_SCORE` and pushing a
half-size secondary explosion at the kill position.  Returns
(surviving rockets, score delta, pushed secondaries). -/
def blastSweep (e : Explosion) : List Projectile →
    List Projectile × Int × List Explosion
  | [] => ([], 0, [])
  | r :: rest =>
    let res := blastSweep e rest
    if blastHits e r then
      (res.1, ROCKET_SCORE + res.2.1, mkExplosion r.pos (EXPLOSION_MAX_RADIUS * 0.5) :: res.2.2)
    else
      (r :: res.1, res.2.1, res.2.2)

/-- Step 4: filter over the explosion array.  Each explosion is updated,
sweeps the current rockets, and is kept exactly when its updated radius
and alpha are both positive.  The secondary explosions pushed by the
sweeps land beyond the length the filter fixed at entry, and the array
reference is replaced by the filter result, so they are returned in the
fourth component and are NOT part of the surviving explosion list.
Returns (kept explosions, surviving rockets, score delta, dropped
secondaries). -/
def explosionsPass : List Explosion → List Projectile →
    List Explosion × List Projectile × Int × List Explosion
  | [], rs => ([], rs, 0, [])
  | e :: rest, rs =>
    let e' := updateExplosion e
    let sw := blastSweep e' rs
    let res := explosionsPass rest sw.1
    ((if 0 < e'.radius ∧ 0 < e'.alpha then e' :: res.1 else res.1),
     res.2.1, sw.2.1 + res.2.2.1, sw.2.2 ++ res.2.2.2)

/-- Difficulty multiplier `1 + (level - 1) * 0.15`. -/
def levelMultiplier (level : ℚ) : ℚ := 1 + (level - 1) * 0.15

/-- Spawn target pool: positions of active cities followed by positions
of active batteries. -/
def activeTargets (cs : List City) (bs : List Battery) : List Point :=
  (cs.filter (·.active)).map (·.pos) ++ (bs.filter (·.active)).map (·.pos)

/-- The four `Math.random()` draws a frame can consume, each in `[0,1)`. -/
structure FrameRnd where
  spawnDraw : ℚ
  startXDraw : ℚ
  targetDraw : ℚ
  speedDraw : ℚ

/-- Step 1: Bernoulli spawn trial.  While the spawn budget is not
exhausted and the draw falls below the difficulty-scaled rate, one rocket
is created from a uniform x on the top edge toward a uniformly chosen
active target, with speed drawn from the scaled range; the spawned count
is incremented only in that case.  Returns (new count, new rockets). -/
def spawnRockets (level width : ℚ) (rnd : FrameRnd) (spawned : Nat)
    (cs : List City) (bs : List Battery) : Nat × List Projectile :=
  let mult := levelMultiplier level
  let rate := SPAWN_RATE * mult
  let sMin := ROCKET_SPEED_MIN * mult
  let sMax := ROCKET_SPEED_MAX * mult
  if spawned < MAX_ROCKETS ∧ rnd.spawnDraw < rate then
    let startX := rnd.startXDraw * width
    let targets := activeTargets cs bs
    if 0 < targets.length then
      let tgt := targets.getD (Int.floor (rnd.targetDraw * targets.length)).toNat default
      (spawned + 1,
        [{ start := ⟨startX, 0⟩, pos := ⟨startX, 0⟩, target := tgt,
           speed := sMin + rnd.speedDraw * (sMax - sMin), progress := 0 }])
    else (spawned, [])
  else (spawned, [])

/-- `!b.active || b.missiles <= 0` from the loss check. -/
def batteryDown (b : Battery) : Bool := !b.active || decide (b.missiles ≤ 0)

/-- Step 6 outcome: WON when score ≥ `WIN_SCORE` or the budget is
exhausted with no rockets left; otherwise LOST when every battery is
down or every city is inactive; otherwise the round continues. -/
def checkGameEnd (score : Int) (spawned : Nat) (rockets : List Projectile)
    (bs : List Battery) (cs : List City) : Option Bool :=
  if WIN_SCORE ≤ score ∨ (MAX_ROCKETS ≤ spawned ∧ rockets.length = 0) then some true
  else if bs.all batteryDown ∨ cs.all (fun c => !c.active) then some false
  else none

structure GameState where
  rockets : List Projectile
  missiles : List Projectile
  explosions : List Explosion
  cities : List City
  batteries : List Battery
  score : Int
  spawnedCount : Nat
deriving DecidableEq

/-- One execution of `animate`'s state update (steps 1–4 and 6; step 5
is pure rendering).  Returns the next state and the reported outcome:
`some true` = WON, `some false` = LOST, `none` = keep playing. -/
def animateFrame (level width : ℚ) (rnd : FrameRnd) (s : GameState) :
    GameState × Option Bool :=
  let sp := spawnRockets level width rnd s.spawnedCount s.cities s.batteries
  let rp := rocketsPass (s.rockets ++ sp.2) s.cities s.batteries
  let mp := missilesPass s.missiles
  let ep := explosionsPass (s.explosions ++ rp.2.2.2 ++ mp.2) rp.1
  let score1 := s.score + ep.2.2.1
  ({ rockets := ep.2.1, missiles := mp.1, explosions := ep.1,
     cities := rp.2.1, batteries := rp.2.2.1,
     score := score1, spawnedCount := sp.1 },
   checkGameEnd score1 sp.1 ep.2.1 rp.2.2.1 rp.2.1)

/-- The frame loop: `requestAnimationFrame` schedules the next frame only
when the outcome check reported nothing; a WON/LOST report returns before
the scheduling call.  Returns (frames executed, final state, outcome). -/
def runFrames (level width : ℚ) : GameState → List FrameRnd →
    Nat × GameState × Option Bool
  | s, [] => (0, s, none)
  | s, r :: rest =>
    match animateFrame level width r s with
    | (s', some b) => (1, s', some b)
    | (s', none) =>
      let res := runFrames level width s' rest
      (res.1 + 1, res.2.1, res.2.2)

/-- Horizontal distance used by the click handler. -/
def fireDist (x : ℚ) (b : Battery) : ℚ := |b.pos.x - x|

/-- A battery eligible to fire: active with missiles left. -/
def canFire (b : Battery) : Bool := b.active && decide (0 < b.missiles)

/-- One comparison step of the battery scan: the candidate at `idx`
replaces the best found so far only when its distance is strictly
smaller (`dist < minDist`, where an empty best plays `Infinity`). -/
def betterBattery (idx : Nat) (b : Battery) (d : ℚ) :
    Option (Nat × Battery × ℚ) → Option (Nat × Battery × ℚ)
  | none => some (idx, b, d)
  | some (i, bb, m) => if d < m then some (idx, b, d) else some (i, bb, m)

/-- The `forEach` scan of `handleCanvasClick`: walk the batteries with
their indices, keeping the best (index, battery, distance) found so far
among those able to fire. -/
def findBestBattery (x : ℚ) : List Battery → Nat →
    Option (Nat × Battery × ℚ) → Option (Nat × Battery × ℚ)
  | [], _, best => best
  | b :: rest, idx, best =>
    if canFire b then
      findBestBattery x rest (idx + 1) (betterBattery idx b (fireDist x b) best)
    else
      findBestBattery x rest (idx + 1) best

/-- In-place `b.missiles -= 1` on the battery at the given index. -/
def decrementAt : List Battery → Nat → List Battery
  | [], _ => []
  | b :: rest, 0 => { b with missiles := b.missiles - 1 } :: rest
  | b :: rest, n + 1 => b :: decrementAt rest n

/-- `handleCanvasClick` in the PLAYING state at canvas coordinate (x,y):
the closest eligible battery loses one missile and launches an
interceptor from its position toward (x,y); with no eligible battery the
click is a no-op. -/
def handleCanvasClick (x y : ℚ) (s : GameState) : GameState :=
  match findBestBattery x s.batteries 0 none with
  | none => s
  | some (i, b, _) =>
    { s with
      batteries := decrementAt s.batteries i,
      missiles := s.missiles ++
        [{ start := b.pos, pos := b.pos, target := ⟨x, y⟩,
           speed := MISSILE_SPEED, progress := 0 }] }

/-! ## Helper lemmas -/

theorem rocketsPass_rockets (rs : List Projectile) (cs : List City) (bs : List Battery) :
    (rocketsPass rs cs bs).1 =
      (rs.map moveProjectile).filter (fun p => decide (p.progress < 1)) := by
  induction rs generalizing cs bs with
  | nil => simp [rocketsPass]
  | cons r rest ih =>
    by_cases h : 1 ≤ (moveProjectile r).progress
    · simp [rocketsPass, h, not_lt.mpr h, ih]
    · simp [rocketsPass, h, not_le.mp h, ih]

theorem rocketsPass_exps (rs : List Projectile) (cs : List City) (bs : List Battery) :
    (rocketsPass rs cs bs).2.2.2 =
      ((rs.map moveProjectile).filter (fun p => decide (1 ≤ p.progress))).map
        (fun p => mkExplosion p.target EXPLOSION_MAX_RADIUS) := by
  induction rs generalizing cs bs with
  | nil => simp [rocketsPass]
  | cons r rest ih =>
    by_cases h : 1 ≤ (moveProjectile r).progress
    · simp [rocketsPass, h, ih]
    · simp [rocketsPass, h, ih]

theorem missilesPass_missiles (ms : List Projectile) :
    (missilesPass ms).1 =
      (ms.map moveProjectile).filter (fun p => decide (p.progress < 1)) := by
  induction ms with
  | nil => simp [missilesPass]
  | cons m rest ih =>
    by_cases h : 1 ≤ (moveProjectile m).progress
    · simp [missilesPass, h, not_lt.mpr h, ih]
    · simp [missilesPass, h, not_le.mp h, ih]

theorem missilesPass_exps (ms : List Projectile) :
    (missilesPass ms).2 =
      ((ms.map moveProjectile).filter (fun p => decide (1 ≤ p.progress))).map
        (fun p => mkExplosion p.target EXPLOSION_MAX_RADIUS) := by
  induction ms with
  | nil => simp [missilesPass]
  | cons m rest ih =>
    by_cases h : 1 ≤ (moveProjectile m).progress
    · simp [missilesPass, h, ih]
    · simp [missilesPass, h, ih]

theorem explosionsPass_kept (es : List Explosion) (rs : List Projectile) :
    (explosionsPass es rs).1 =
      (es.map updateExplosion).filter
        (fun e => decide (0 < e.radius) && decide (0 < e.alpha)) := by
  induction es generalizing rs with
  | nil => simp [explosionsPass]
  | cons e rest ih =>
    by_cases h : 0 < (updateExplosion e).radius ∧ 0 < (updateExplosion e).alpha
    · simp [explosionsPass, h, ih]
    · simp only [explosionsPass, if_neg h, ih, List.map_cons, List.filter_cons]
      have : ¬(decide (0 < (updateExplosion e).radius) &&
          decide (0 < (updateExplosion e).alpha)) = true := by
        simpa [Bool.and_eq_true, decide_eq_true_eq] using h
      simp [this]

theorem blastSweep_length (e : Explosion) (rs : List Projectile) :
    (blastSweep e rs).1.length ≤ rs.length := by
  induction rs with
  | nil => simp [blastSweep]
  | cons r rest ih =>
    by_cases h : blastHits e r
    · simp only [blastSweep, if_pos h, List.length_cons]
      omega
    · simp only [blastSweep, if_neg h, List.length_cons]
      omega

theorem blastSweep_score (e : Explosion) (rs : List Projectile) :
    (blastSweep e rs).2.1 =
      ROCKET_SCORE * ((rs.length : Int) - ((blastSweep e rs).1.length : Int)) := by
  induction rs with
  | nil => simp [blastSweep]
  | cons r rest ih =>
    by_cases h : blastHits e r
    · simp only [blastSweep, if_pos h, List.length_cons, ih]
      push_cast
      ring
    · simp only [blastSweep, if_neg h, List.length_cons, ih]
      push_cast
      ring

theorem explosionsPass_length (es : List Explosion) (rs : List Projectile) :
    (explosionsPass es rs).2.1.length ≤ rs.length := by
  induction es generalizing rs with
  | nil => simp [explosionsPass]
  | cons e rest ih =>
    simp only [explosionsPass]
    exact le_trans (ih _) (blastSweep_length _ _)

theorem explosionsPass_score (es : List Explosion) (rs : List Projectile) :
    (explosionsPass es rs).2.2.1 =
      ROCKET_SCORE * ((rs.length : Int) - ((explosionsPass es rs).2.1.length : Int)) := by
  induction es generalizing rs with
  | nil => simp [explosionsPass]
  | cons e rest ih =>
    simp only [explosionsPass]
    rw [blastSweep_score, ih]
    ring

theorem rocketsPass_no_impacts (rs : List Projectile) (cs : List City) (bs : List Battery)
    (h : ∀ r ∈ rs, (moveProjectile r).progress < 1) :
    rocketsPass rs cs bs = (rs.map moveProjectile, cs, bs, []) := by
  induction rs generalizing cs bs with
  | nil => simp [rocketsPass]
  | cons r rest ih =>
    have hr := h r (by simp)
    have hrest : ∀ p ∈ rest, (moveProjectile p).progress < 1 := fun p hp => h p (by simp [hp])
    simp [rocketsPass, not_le.mpr hr, ih _ _ hrest]

/-! ## Claims -/

/-- C2: the frame outcome is WON exactly when score ≥ the win threshold or
the spawn budget is exhausted with no live enemy rockets; LOST exactly
when the WON condition fails and either every battery is inactive or out
of ammo or every city is inactive; a state satisfying both resolves WON
because the WON branch is checked first. -/
theorem claim_C2 (score : Int) (spawned : Nat) (rockets : List Projectile)
    (bs : List Battery) (cs : List City) :
    (checkGameEnd score spawned rockets bs cs = some true ↔
      (WIN_SCORE ≤ score ∨ (MAX_ROCKETS ≤ spawned ∧ rockets = []))) ∧
    (checkGameEnd score spawned rockets bs cs = some false ↔
      (¬(WIN_SCORE ≤ score ∨ (MAX_ROCKETS ≤ spawned ∧ rockets = [])) ∧
       ((∀ b ∈ bs, b.active = false ∨ b.missiles ≤ 0) ∨ (∀ c ∈ cs, c.active = false)))) ∧
    ((WIN_SCORE ≤ score ∨ (MAX_ROCKETS ≤ spawned ∧ rockets = [])) →
     ((∀ b ∈ bs, b.active = false ∨ b.missiles ≤ 0) ∨ (∀ c ∈ cs, c.active = false)) →
      checkGameEnd score spawned rockets bs cs = some true) := by
  have hlen : rockets.length = 0 ↔ rockets = [] := List.length_eq_zero
  have hbat : (bs.all batteryDown = true) ↔ (∀ b ∈ bs, b.active = false ∨ b.missiles ≤ 0) := by
    simp [List.all_eq_true, batteryDown, Bool.not_eq_true']
  have hcit : (cs.all (fun c => !c.active) = true) ↔ (∀ c ∈ cs, c.active = false) := by
    simp [List.all_eq_true, Bool.not_eq_true']
  by_cases hw : WIN_SCORE ≤ score ∨ (MAX_ROCKETS ≤ spawned ∧ rockets = [])
  · have hw' : WIN_SCORE ≤ score ∨ (MAX_ROCKETS ≤ spawned ∧ rockets.length = 0) := by
      rcases hw with h | h
      · exact Or.inl h
      · exact Or.inr ⟨h.1, hlen.mpr h.2⟩
    simp [checkGameEnd, hw', hw]
  · have hw' : ¬(WIN_SCORE ≤ score ∨ (MAX_ROCKETS ≤ spawned ∧ rockets.length = 0)) := by
      intro h
      apply hw
      rcases h with h | h
      · exact Or.inl h
      · exact Or.inr ⟨h.1, hlen.mp h.2⟩
    by_cases hl : (bs.all batteryDown = true) ∨ (cs.all (fun c => !c.active) = true)
    · have hl' : (∀ b ∈ bs, b.active = false ∨ b.missiles ≤ 0) ∨ (∀ c ∈ cs, c.active = false) := by
        rcases hl with h | h
        · exact Or.inl (hbat.mp h)
        · exact Or.inr (hcit.mp h)
      have e1 : checkGameEnd score spawned rockets bs cs = some false := by
        unfold checkGameEnd
        rw [if_neg hw', if_pos hl]
      refine ⟨?_, ?_, ?_⟩
      · simp [e1, hw]
      · simp [e1, hw, hl']
      · intro h
        exact absurd h hw
    · have hl' : ¬((∀ b ∈ bs, b.active = false ∨ b.missiles ≤ 0) ∨ (∀ c ∈ cs, c.active = false)) := by
        intro h
        apply hl
        rcases h with h | h
        · exact Or.inl (hbat.mpr h)
        · exact Or.inr (hcit.mpr h)
      have e1 : checkGameEnd score spawned rockets bs cs = none := by
        unfold checkGameEnd
        rw [if_neg hw', if_neg hl]
      refine ⟨?_, ?_, ?_⟩
      · simp [e1, hw]
      · simp [e1, hw, hl']
      · intro h
        exact absurd h hw

/-- C2 witness: a state with score exactly at the threshold and all
(zero) batteries down satisfies both conditions and resolves WON. -/
theorem claim_C2_witness :
    (WIN_SCORE ≤ 1000 ∨ (MAX_ROCKETS ≤ 0 ∧ ([] : List Projectile) = [])) ∧
    ((∀ b ∈ ([] : List Battery), b.active = false ∨ b.missiles ≤ 0) ∨
      (∀ c ∈ ([] : List City), c.active = false)) ∧
    checkGameEnd 1000 0 [] [] [] = some true := by
  have h1 : WIN_SCORE ≤ 1000 ∨ (MAX_ROCKETS ≤ 0 ∧ ([] : List Projectile) = []) := by
    norm_num [WIN_SCORE]
  have h2 : (∀ b ∈ ([] : List Battery), b.active = false ∨ b.missiles ≤ 0) ∨
      (∀ c ∈ ([] : List City), c.active = false) := by simp
  exact ⟨h1, h2, (claim_C2 1000 0 [] [] []).2.2 h1 h2⟩

/-- C4: a blast grows by `EXPLOSION_SPEED` per frame while the growing
flag is set and flips to shrinking exactly when the updated radius
reaches `maxRadius` (keeping the overshoot); while shrinking it loses
half the grow rate in radius and 0.02 alpha per frame; the surviving
blast collection of a frame keeps exactly the updated blasts with radius
and alpha both still positive (removal when radius ≤ 0 or alpha ≤ 0). -/
theorem claim_C4 (e : Explosion) (es : List Explosion) (rs : List Projectile) :
    (updateExplosion e).radius =
      (if e.growing then e.radius + EXPLOSION_SPEED else e.radius - EXPLOSION_SPEED * 0.5) ∧
    (updateExplosion e).alpha = (if e.growing then e.alpha else e.alpha - 0.02) ∧
    (updateExplosion e).growing =
      (e.growing && decide (e.radius + EXPLOSION_SPEED < e.maxRadius)) ∧
    (updateExplosion e).maxRadius = e.maxRadius ∧
    (explosionsPass es rs).1 =
      (es.map updateExplosion).filter
        (fun x => decide (0 < x.radius) && decide (0 < x.alpha)) := by
  refine ⟨?_, ?_, ?_, ?_, explosionsPass_kept es rs⟩
  · cases hg : e.growing <;> simp [updateExplosion, hg]
  · cases hg : e.growing <;> simp [updateExplosion, hg]
  · cases hg : e.growing <;> simp [updateExplosion, hg]
  · cases hg : e.growing <;> simp [updateExplosion, hg]

/-- C5: every projectile update adds `speed` to `progress` and places the
projectile at the unclamped linear interpolation between start and target
at the new progress; the frame keeps exactly the projectiles whose
updated progress stays below 1, impact-resolving the others into blasts
at their targets in the same frame; with nonnegative speed the progress
never decreases. -/
theorem claim_C5 (r : Projectile) (hr : 0 ≤ r.speed) (rs ms : List Projectile)
    (cs : List City) (bs : List Battery) :
    (moveProjectile r).progress = r.progress + r.speed ∧
    (moveProjectile r).pos =
      ⟨r.start.x + (r.target.x - r.start.x) * (r.progress + r.speed),
       r.start.y + (r.target.y - r.start.y) * (r.progress + r.speed)⟩ ∧
    r.progress ≤ (moveProjectile r).progress ∧
    (rocketsPass rs cs bs).1 =
      (rs.map moveProjectile).filter (fun p => decide (p.progress < 1)) ∧
    (rocketsPass rs cs bs).2.2.2 =
      ((rs.map moveProjectile).filter (fun p => decide (1 ≤ p.progress))).map
        (fun p => mkExplosion p.target EXPLOSION_MAX_RADIUS) ∧
    (missilesPass ms).1 =
      (ms.map moveProjectile).filter (fun p => decide (p.progress < 1)) ∧
    (missilesPass ms).2 =
      ((ms.map moveProjectile).filter (fun p => decide (1 ≤ p.progress))).map
        (fun p => mkExplosion p.target EXPLOSION_MAX_RADIUS) := by
  refine ⟨rfl, rfl, ?_, rocketsPass_rockets rs cs bs, rocketsPass_exps rs cs bs,
    missilesPass_missiles ms, missilesPass_exps ms⟩
  have : (moveProjectile r).progress = r.progress + r.speed := rfl
  rw [this]
  linarith

/-- C5 witness: a concrete projectile with positive speed. -/
theorem claim_C5_witness :
    0 ≤ (⟨⟨0, 0⟩, ⟨0, 0⟩, ⟨4, 4⟩, 0.25, 0.5⟩ : Projectile).speed ∧
    (⟨⟨0, 0⟩, ⟨0, 0⟩, ⟨4, 4⟩, 0.25, 0.5⟩ : Projectile).progress ≤
      (moveProjectile ⟨⟨0, 0⟩, ⟨0, 0⟩, ⟨4, 4⟩, 0.25, 0.5⟩).progress :=
  ⟨by norm_num, (claim_C5 ⟨⟨0, 0⟩, ⟨0, 0⟩, ⟨4, 4⟩, 0.25, 0.5⟩ (by norm_num)
    [] [] [] []).2.2.1⟩

theorem explosionsPass_score_nonneg (es : List Explosion) (rs : List Projectile) :
    0 ≤ (explosionsPass es rs).2.2.1 := by
  rw [explosionsPass_score]
  have h2 : ((explosionsPass es rs).2.1.length : Int) ≤ (rs.length : Int) := by
    exact_mod_cast explosionsPass_length es rs
  have h3 : (0 : Int) ≤ (rs.length : Int) - ((explosionsPass es rs).2.1.length : Int) := by
    omega
  have h4 : (0 : Int) ≤ ROCKET_SCORE := by norm_num [ROCKET_SCORE]
  exact mul_nonneg h4 h3

theorem animateFrame_score_eq (level width : ℚ) (rnd : FrameRnd) (s : GameState) :
    (animateFrame level width rnd s).1.score =
      s.score + (explosionsPass
        (s.explosions ++
          (rocketsPass (s.rockets ++
            (spawnRockets level width rnd s.spawnedCount s.cities s.batteries).2)
            s.cities s.batteries).2.2.2 ++ (missilesPass s.missiles).2)
        ((rocketsPass (s.rockets ++
            (spawnRockets level width rnd s.spawnedCount s.cities s.batteries).2)
            s.cities s.batteries).1)).2.2.1 := rfl

theorem animateFrame_score_le (level width : ℚ) (rnd : FrameRnd) (s : GameState) :
    s.score ≤ (animateFrame level width rnd s).1.score := by
  rw [animateFrame_score_eq]
  have := explosionsPass_score_nonneg (s.explosions ++
      (rocketsPass (s.rockets ++
        (spawnRockets level width rnd s.spawnedCount s.cities s.batteries).2)
        s.cities s.batteries).2.2.2 ++ (missilesPass s.missiles).2)
    ((rocketsPass (s.rockets ++
        (spawnRockets level width rnd s.spawnedCount s.cities s.batteries).2)
        s.cities s.batteries).1)
  omega

theorem runFrames_score_mono (level width : ℚ) :
    ∀ (rnds : List FrameRnd) (s : GameState),
    s.score ≤ (runFrames level width s rnds).2.1.score := by
  intro rnds
  induction rnds with
  | nil =>
    intro s
    simp [runFrames]
  | cons r rest ih =>
    intro s
    have h1 := animateFrame_score_le level width r s
    rcases ha : animateFrame level width r s with ⟨s', out⟩
    rw [ha] at h1
    cases out with
    | some b =>
      simp only [runFrames, ha]
      exact h1
    | none =>
      simp only [runFrames, ha]
      exact le_trans h1 (ih s')

/-- C3: the collision stage's score delta is exactly `ROCKET_SCORE` times
the number of enemy rockets destroyed in the pass (each removed rocket
counted once, never twice even under overlapping blasts, since a
destroyed rocket is removed before any later blast is evaluated); over a
frame the score never decreases and changes by a multiple of
`ROCKET_SCORE`, and over any run of frames the score is non-decreasing. -/
theorem claim_C3 (es : List Explosion) (rs : List Projectile)
    (level width : ℚ) (rnd : FrameRnd) (rnds : List FrameRnd) (s : GameState) :
    (explosionsPass es rs).2.2.1 =
      ROCKET_SCORE * ((rs.length : Int) - ((explosionsPass es rs).2.1.length : Int)) ∧
    (explosionsPass es rs).2.1.length ≤ rs.length ∧
    s.score ≤ (animateFrame level width rnd s).1.score ∧
    (ROCKET_SCORE ∣ ((animateFrame level width rnd s).1.score - s.score)) ∧
    s.score ≤ (runFrames level width s rnds).2.1.score := by
  refine ⟨explosionsPass_score es rs, explosionsPass_length es rs,
    animateFrame_score_le level width rnd s, ?_, runFrames_score_mono level width rnds s⟩
  rw [animateFrame_score_eq, add_sub_cancel_left, explosionsPass_score]
  exact dvd_mul_right _ _

/-- C10: when no enemy rocket reaches progress 1 this frame (so only the
blast/collision removal path can act), the frame leaves every city and
every battery — active flags and ammo — unchanged. -/
theorem claim_C10 (level width : ℚ) (rnd : FrameRnd) (s : GameState)
    (h : ∀ r ∈ s.rockets ++
        (spawnRockets level width rnd s.spawnedCount s.cities s.batteries).2,
      (moveProjectile r).progress < 1) :
    (animateFrame level width rnd s).1.cities = s.cities ∧
    (animateFrame level width rnd s).1.batteries = s.batteries := by
  have hr := rocketsPass_no_impacts _ s.cities s.batteries h
  constructor <;> simp [animateFrame, hr]

/-- Concrete state for the C10 witness: one rocket far from impact, one
blast overlapping it. -/
def stateC10 : GameState :=
  { rockets := [⟨⟨0, 0⟩, ⟨0, 0⟩, ⟨10, 10⟩, 0.1, 0.1⟩], missiles := [],
    explosions := [⟨⟨2, 2⟩, 5, 40, true, 1⟩],
    cities := [⟨⟨5, 9⟩, true⟩], batteries := [⟨⟨7, 9⟩, true, 3, 20⟩],
    score := 0, spawnedCount := 0 }

/-- C10 witness: in `stateC10` the blast destroys the rocket (no rocket
reaches progress 1), and cities and batteries are untouched. -/
theorem claim_C10_witness :
    (∀ r ∈ stateC10.rockets ++
        (spawnRockets 1 100 ⟨1, 0, 0, 0⟩ stateC10.spawnedCount stateC10.cities
          stateC10.batteries).2,
      (moveProjectile r).progress < 1) ∧
    (animateFrame 1 100 ⟨1, 0, 0, 0⟩ stateC10).1.cities = stateC10.cities ∧
    (animateFrame 1 100 ⟨1, 0, 0, 0⟩ stateC10).1.batteries = stateC10.batteries := by
  have h : ∀ r ∈ stateC10.rockets ++
      (spawnRockets 1 100 ⟨1, 0, 0, 0⟩ stateC10.spawnedCount stateC10.cities
        stateC10.batteries).2,
      (moveProjectile r).progress < 1 := by
    norm_num [stateC10, spawnRockets, levelMultiplier, SPAWN_RATE, MAX_ROCKETS,
      moveProjectile]
  exact ⟨h, (claim_C10 1 100 ⟨1, 0, 0, 0⟩ stateC10 h).1,
    (claim_C10 1 100 ⟨1, 0, 0, 0⟩ stateC10 h).2⟩

theorem deactivateNear_fst (tx : ℚ) (cs : List City) (bs : List Battery) :
    (deactivateNear tx cs bs).1 =
      cs.map (fun c => { c with active := c.active && !decide (|c.pos.x - tx| < 5) }) := by
  simp only [deactivateNear]
  induction cs with
  | nil => rfl
  | cons c rest ih =>
    rcases c with ⟨cpos, cact⟩
    simp only [List.map_cons, ih]
    cases cact <;> by_cases hd : |cpos.x - tx| < 5 <;> simp [hd]

theorem deactivateNear_snd (tx : ℚ) (cs : List City) (bs : List Battery) :
    (deactivateNear tx cs bs).2 =
      bs.map (fun b => { b with active := b.active && !decide (|b.pos.x - tx| < 5) }) := by
  simp only [deactivateNear]
  induction bs with
  | nil => rfl
  | cons b rest ih =>
    rcases b with ⟨bpos, bact, bm, bmm⟩
    simp only [List.map_cons, ih]
    cases bact <;> by_cases hd : |bpos.x - tx| < 5 <;> simp [hd]

/-- C6: an enemy impact at target x deactivates exactly the active cities
and batteries whose horizontal distance to x is below 5 px — the test
reads only the x coordinates, leaving positions and ammo unchanged —
while in a frame with no enemy rockets (so any impacts are interceptor
impacts) cities and batteries are entirely unchanged. -/
theorem claim_C6 (tx : ℚ) (cs : List City) (bs : List Battery)
    (level width : ℚ) (rnd : FrameRnd) (s : GameState)
    (h1 : s.rockets = [])
    (h2 : ¬ rnd.spawnDraw < SPAWN_RATE * levelMultiplier level) :
    (deactivateNear tx cs bs).1 =
      cs.map (fun c => { c with active := c.active && !decide (|c.pos.x - tx| < 5) }) ∧
    (deactivateNear tx cs bs).2 =
      bs.map (fun b => { b with active := b.active && !decide (|b.pos.x - tx| < 5) }) ∧
    (animateFrame level width rnd s).1.cities = s.cities ∧
    (animateFrame level width rnd s).1.batteries = s.batteries := by
  have hspawn : spawnRockets level width rnd s.spawnedCount s.cities s.batteries =
      (s.spawnedCount, []) := by
    simp only [spawnRockets]
    rw [if_neg]
    intro hc
    exact h2 hc.2
  refine ⟨deactivateNear_fst tx cs bs, deactivateNear_snd tx cs bs, ?_, ?_⟩ <;>
    simp [animateFrame, hspawn, h1, rocketsPass]

/-- Concrete state for the C6 witness: no enemy rockets, one interceptor
missile that impact-resolves this frame. -/
def stateC6 : GameState :=
  { rockets := [], missiles := [⟨⟨50, 90⟩, ⟨48, 4⟩, ⟨48, 2⟩, 0.5, 0.96⟩],
    explosions := [], cities := [⟨⟨5, 9⟩, true⟩],
    batteries := [⟨⟨7, 9⟩, true, 3, 20⟩], score := 0, spawnedCount := 0 }

/-- C6 witness: a concrete impact x, ground entities, and a frame of
`stateC6` in which an interceptor detonates. -/
theorem claim_C6_witness :
    stateC6.rockets = [] ∧
    (¬ (1 : ℚ) < SPAWN_RATE * levelMultiplier 1) ∧
    (deactivateNear 0 [⟨⟨3, 9⟩, true⟩] []).1 =
      [(⟨⟨3, 9⟩, true⟩ : City)].map
        (fun c => { c with active := c.active && !decide (|c.pos.x - 0| < 5) }) ∧
    (animateFrame 1 100 ⟨1, 0, 0, 0⟩ stateC6).1.cities = stateC6.cities ∧
    (animateFrame 1 100 ⟨1, 0, 0, 0⟩ stateC6).1.batteries = stateC6.batteries := by
  have h1 : stateC6.rockets = [] := rfl
  have h2 : ¬ ((⟨1, 0, 0, 0⟩ : FrameRnd).spawnDraw < SPAWN_RATE * levelMultiplier 1) := by
    norm_num [SPAWN_RATE, levelMultiplier]
  have h := claim_C6 0 [⟨⟨3, 9⟩, true⟩] [] 1 100 ⟨1, 0, 0, 0⟩ stateC6 h1 h2
  exact ⟨h1, h2, h.1, h.2.2.1, h.2.2.2⟩

/-- C9: a frame that reports WON or LOST is terminal — the loop executes
that single frame and schedules no further iteration, whatever random
draws would have followed. -/
theorem claim_C9 (level width : ℚ) (rnd : FrameRnd) (s s' : GameState) (b : Bool)
    (h : animateFrame level width rnd s = (s', some b)) (rest : List FrameRnd) :
    runFrames level width s (rnd :: rest) = (1, s', some b) := by
  simp [runFrames, h]

/-- Concrete state for the C9 witness: no batteries at all, so the loss
condition (every battery down) holds vacuously. -/
def stateC9 : GameState :=
  { rockets := [], missiles := [], explosions := [], cities := [⟨⟨1, 1⟩, true⟩],
    batteries := [], score := 0, spawnedCount := 0 }

/-- C9 witness: `stateC9` reports LOST and the loop runs exactly one
frame even with more draws queued. -/
theorem claim_C9_witness :
    animateFrame 1 100 ⟨1, 0, 0, 0⟩ stateC9 = (stateC9, some false) ∧
    runFrames 1 100 stateC9 [⟨1, 0, 0, 0⟩, ⟨0, 0, 0, 0⟩] = (1, stateC9, some false) := by
  have h : animateFrame 1 100 ⟨1, 0, 0, 0⟩ stateC9 = (stateC9, some false) := by
    norm_num [animateFrame, spawnRockets, rocketsPass, missilesPass, explosionsPass,
      checkGameEnd, levelMultiplier, SPAWN_RATE, MAX_ROCKETS, WIN_SCORE, batteryDown,
      stateC9]
  exact ⟨h, claim_C9 1 100 ⟨1, 0, 0, 0⟩ stateC9 stateC9 false h [⟨0, 0, 0, 0⟩]⟩

/-- Enemy rocket for the C1 failing input: after this frame's kinematics
it sits exactly at the blast centre with progress 1/2. -/
def rocketC1 : Projectile :=
  { start := ⟨50, 0⟩, pos := ⟨50, 0⟩, target := ⟨50, 100⟩, speed := 0.05, progress := 0.45 }

/-- Blast for the C1 failing input, as created by an interceptor
detonation at (50, 50) on the previous frame. -/
def expC1 : Explosion :=
  { pos := ⟨50, 50⟩, radius := 0, maxRadius := 40, growing := true, alpha := 1 }

def frameRndC1 : FrameRnd := ⟨1, 0, 0, 0⟩

def stateC1 : GameState :=
  { rockets := [rocketC1], missiles := [], explosions := [expC1],
    cities := [⟨⟨20, 95⟩, true⟩], batteries := [⟨⟨80, 90⟩, true, 10, 20⟩],
    score := 0, spawnedCount := 0 }

/-- C1: at the failing input the enemy rocket inside the blast radius is
destroyed and the score rises by `ROCKET_SCORE`, and the collision
callback does push a half-size secondary blast at the kill position —
but that push lands on the explosion array being filtered beyond the
length the filter fixed at entry, and the array reference is then replaced
by the filter result, so no half-size blast is present in the live blast
collection on the following frame: the code drops the secondary blast
the spec promises. -/
theorem claim_C1 :
    (animateFrame 1 100 frameRndC1 stateC1).1.score = 20 ∧
    (animateFrame 1 100 frameRndC1 stateC1).1.rockets = [] ∧
    (explosionsPass [expC1] [moveProjectile rocketC1]).2.2.2 =
      [mkExplosion ⟨50, 50⟩ (EXPLOSION_MAX_RADIUS * 0.5)] ∧
    (∀ e ∈ (animateFrame 1 100 frameRndC1 stateC1).1.explosions,
      e.maxRadius ≠ EXPLOSION_MAX_RADIUS * 0.5) := by
  norm_num [animateFrame, spawnRockets, rocketsPass, missilesPass, explosionsPass,
    blastSweep, blastHits, updateExplosion, moveProjectile, mkExplosion, deactivateNear,
    levelMultiplier, activeTargets, checkGameEnd, stateC1, rocketC1, expC1, frameRndC1,
    SPAWN_RATE, EXPLOSION_SPEED, EXPLOSION_MAX_RADIUS, ROCKET_SCORE, MAX_ROCKETS,
    WIN_SCORE]

theorem findBest_none (x : ℚ) (bs : List Battery) :
    ∀ (idx : Nat) (acc : Option (Nat × Battery × ℚ)),
    findBestBattery x bs idx acc = none ↔ acc = none ∧ ∀ b ∈ bs, canFire b = false := by
  induction bs with
  | nil =>
    intro idx acc
    simp [findBestBattery]
  | cons b rest ih =>
    intro idx acc
    cases hcf : canFire b
    · simp only [findBestBattery, hcf, Bool.false_eq_true, if_false, ih]
      constructor
      · rintro ⟨h1, h2⟩
        refine ⟨h1, ?_⟩
        intro b' hb'
        rcases List.mem_cons.mp hb' with rfl | hb'
        · exact hcf
        · exact h2 b' hb'
      · rintro ⟨h1, h2⟩
        exact ⟨h1, fun b' hb' => h2 b' (List.mem_cons_of_mem _ hb')⟩
    · simp only [findBestBattery, hcf, if_true, ih]
      constructor
      · rintro ⟨hnone, -⟩
        exfalso
        rcases acc with _ | ⟨⟨i, bb, m⟩⟩
        · simp [betterBattery] at hnone
        · by_cases hd : fireDist x b < m <;> simp [betterBattery, hd] at hnone
      · rintro ⟨-, hall⟩
        have := hall b (by simp)
        rw [this] at hcf
        cases hcf

theorem findBest_le_acc (x : ℚ) (bs : List Battery) :
    ∀ (idx i0 : Nat) (b0 : Battery) (m : ℚ) (i : Nat) (b : Battery) (d : ℚ),
    findBestBattery x bs idx (some (i0, b0, m)) = some (i, b, d) → d ≤ m := by
  induction bs with
  | nil =>
    intro idx i0 b0 m i b d h
    simp only [findBestBattery, Option.some.injEq, Prod.mk.injEq] at h
    exact le_of_eq h.2.2.symm
  | cons bhd rest ih =>
    intro idx i0 b0 m i b d h
    cases hcf : canFire bhd
    · simp only [findBestBattery, hcf, Bool.false_eq_true, if_false] at h
      exact ih _ _ _ _ _ _ _ h
    · simp only [findBestBattery, hcf, if_true, betterBattery] at h
      by_cases hd : fireDist x bhd < m
      · rw [if_pos hd] at h
        have := ih _ _ _ _ _ _ _ h
        linarith
      · rw [if_neg hd] at h
        exact ih _ _ _ _ _ _ _ h

theorem findBest_acc_cases (x : ℚ) (bs : List Battery) :
    ∀ (idx i0 : Nat) (b0 : Battery) (m : ℚ) (i : Nat) (b : Battery) (d : ℚ),
    findBestBattery x bs idx (some (i0, b0, m)) = some (i, b, d) →
    (i = i0 ∧ b = b0 ∧ d = m) ∨ d < m := by
  induction bs with
  | nil =>
    intro idx i0 b0 m i b d h
    simp only [findBestBattery, Option.some.injEq, Prod.mk.injEq] at h
    exact Or.inl ⟨h.1.symm, h.2.1.symm, h.2.2.symm⟩
  | cons bhd rest ih =>
    intro idx i0 b0 m i b d h
    cases hcf : canFire bhd
    · simp only [findBestBattery, hcf, Bool.false_eq_true, if_false] at h
      exact ih _ _ _ _ _ _ _ h
    · simp only [findBestBattery, hcf, if_true, betterBattery] at h
      by_cases hd : fireDist x bhd < m
      · rw [if_pos hd] at h
        rcases ih _ _ _ _ _ _ _ h with ⟨-, -, hdq⟩ | hlt
        · exact Or.inr (by linarith)
        · exact Or.inr (by linarith)
      · rw [if_neg hd] at h
        exact ih _ _ _ _ _ _ _ h

theorem findBest_min (x : ℚ) (bs : List Battery) :
    ∀ (idx : Nat) (acc : Option (Nat × Battery × ℚ)) (i : Nat) (b : Battery) (d : ℚ),
    findBestBattery x bs idx acc = some (i, b, d) →
    ∀ b' ∈ bs, canFire b' = true → d ≤ fireDist x b' := by
  induction bs with
  | nil =>
    intro idx acc i b d h b' hb'
    cases hb'
  | cons bhd rest ih =>
    intro idx acc i b d h b' hb' hcf'
    rcases List.mem_cons.mp hb' with rfl | hmem
    · simp only [findBestBattery, hcf', if_true] at h
      rcases acc with _ | ⟨⟨i0, b0, m⟩⟩
      · simp only [betterBattery] at h
        exact findBest_le_acc x rest _ _ _ _ _ _ _ h
      · simp only [betterBattery] at h
        by_cases hd : fireDist x b' < m
        · rw [if_pos hd] at h
          exact findBest_le_acc x rest _ _ _ _ _ _ _ h
        · rw [if_neg hd] at h
          have h1 := findBest_le_acc x rest _ _ _ _ _ _ _ h
          push_neg at hd
          linarith
    · cases hcf : canFire bhd
      · simp only [findBestBattery, hcf, Bool.false_eq_true, if_false] at h
        exact ih _ _ _ _ _ h b' hmem hcf'
      · simp only [findBestBattery, hcf, if_true] at h
        exact ih _ _ _ _ _ h b' hmem hcf'

theorem findBest_sound (x : ℚ) (bs : List Battery) :
    ∀ (idx : Nat) (acc : Option (Nat × Battery × ℚ)) (i : Nat) (b : Battery) (d : ℚ),
    findBestBattery x bs idx acc = some (i, b, d) →
    acc = some (i, b, d) ∨
      ∃ k, idx + k = i ∧ bs[k]? = some b ∧ canFire b = true ∧ d = fireDist x b := by
  induction bs with
  | nil =>
    intro idx acc i b d h
    exact Or.inl h
  | cons bhd rest ih =>
    intro idx acc i b d h
    cases hcf : canFire bhd
    · simp only [findBestBattery, hcf, Bool.false_eq_true, if_false] at h
      rcases ih _ _ _ _ _ h with hacc | ⟨k, hik, hget, hcf', hd⟩
      · exact Or.inl hacc
      · exact Or.inr ⟨k + 1, by omega, by simpa using hget, hcf', hd⟩
    · simp only [findBestBattery, hcf, if_true] at h
      rcases ih _ _ _ _ _ h with hacc | ⟨k, hik, hget, hcf', hd⟩
      · rcases acc with _ | ⟨⟨i0, b0, m⟩⟩
        · simp only [betterBattery, Option.some.injEq, Prod.mk.injEq] at hacc
          refine Or.inr ⟨0, by omega, ?_, ?_, ?_⟩
          · simp [hacc.2.1]
          · rw [← hacc.2.1]; exact hcf
          · rw [← hacc.2.2, ← hacc.2.1]
        · simp only [betterBattery] at hacc
          by_cases hd : fireDist x bhd < m
          · rw [if_pos hd] at hacc
            simp only [Option.some.injEq, Prod.mk.injEq] at hacc
            refine Or.inr ⟨0, by omega, ?_, ?_, ?_⟩
            · simp [hacc.2.1]
            · rw [← hacc.2.1]; exact hcf
            · rw [← hacc.2.2, ← hacc.2.1]
          · rw [if_neg hd] at hacc
            exact Or.inl hacc
      · exact Or.inr ⟨k + 1, by omega, by simpa using hget, hcf', hd⟩

theorem findBest_first (x : ℚ) (bs : List Battery) :
    ∀ (idx : Nat) (acc : Option (Nat × Battery × ℚ)) (i : Nat) (b : Battery) (d : ℚ),
    findBestBattery x bs idx acc = some (i, b, d) →
    (∀ i0 b0 m, acc = some (i0, b0, m) → i0 < idx) →
    ∀ k b', bs[k]? = some b' → idx + k < i → canFire b' = true →
      d < fireDist x b' := by
  induction bs with
  | nil =>
    intro idx acc i b d h hacc k b' hget
    simp at hget
  | cons bhd rest ih =>
    intro idx acc i b d h hacc k b' hget hki hcfk
    cases hcf : canFire bhd
    · match k with
      | 0 =>
        simp only [List.getElem?_cons_zero, Option.some.injEq] at hget
        rw [hget] at hcf
        rw [hcf] at hcfk
        cases hcfk
      | k + 1 =>
        simp only [findBestBattery, hcf, Bool.false_eq_true, if_false] at h
        simp only [List.getElem?_cons_succ] at hget
        exact ih _ _ _ _ _ h
          (fun i0 b0 m hm => Nat.lt_succ_of_lt (hacc i0 b0 m hm)) k b' hget (by omega) hcfk
    · simp only [findBestBattery, hcf, if_true] at h
      match k with
      | 0 =>
        simp only [List.getElem?_cons_zero, Option.some.injEq] at hget
        rw [← hget]
        rcases acc with _ | ⟨⟨i0, b0, m⟩⟩
        · simp only [betterBattery] at h
          rcases findBest_acc_cases x rest _ _ _ _ _ _ _ h with ⟨hi, -, -⟩ | hlt
          · omega
          · exact hlt
        · simp only [betterBattery] at h
          by_cases hd : fireDist x bhd < m
          · rw [if_pos hd] at h
            rcases findBest_acc_cases x rest _ _ _ _ _ _ _ h with ⟨hi, -, -⟩ | hlt
            · omega
            · exact hlt
          · rw [if_neg hd] at h
            rcases findBest_acc_cases x rest _ _ _ _ _ _ _ h with ⟨hi, -, -⟩ | hlt
            · have := hacc i0 b0 m rfl
              omega
            · push_neg at hd
              linarith
      | k + 1 =>
        simp only [List.getElem?_cons_succ] at hget
        have haccb : ∀ i0 b0 m,
            betterBattery idx bhd (fireDist x bhd) acc = some (i0, b0, m) → i0 < idx + 1 := by
          intro i0 b0 m hm
          rcases acc with _ | ⟨⟨i1, b1, m1⟩⟩
          · simp only [betterBattery, Option.some.injEq, Prod.mk.injEq] at hm
            omega
          · simp only [betterBattery] at hm
            by_cases hd : fireDist x bhd < m1
            · rw [if_pos hd] at hm
              simp only [Option.some.injEq, Prod.mk.injEq] at hm
              omega
            · rw [if_neg hd] at hm
              simp only [Option.some.injEq, Prod.mk.injEq] at hm
              have := hacc i1 b1 m1 rfl
              omega
        exact ih _ _ _ _ _ h haccb k b' hget (by omega) hcfk

theorem decrementAt_self (bs : List Battery) :
    ∀ i, (decrementAt bs i)[i]? =
      (bs[i]?).map (fun b => { b with missiles := b.missiles - 1 }) := by
  induction bs with
  | nil =>
    intro i
    cases i <;> simp [decrementAt]
  | cons b rest ih =>
    intro i
    cases i <;> simp [decrementAt, ih]

theorem decrementAt_ne (bs : List Battery) :
    ∀ i j, j ≠ i → (decrementAt bs i)[j]? = bs[j]? := by
  induction bs with
  | nil =>
    intro i j hne
    simp [decrementAt]
  | cons b rest ih =>
    intro i j hne
    cases i with
    | zero =>
      cases j with
      | zero => exact absurd rfl hne
      | succ j => simp [decrementAt]
    | succ i =>
      cases j with
      | zero => simp [decrementAt]
      | succ j => simp [decrementAt, ih i j (by omega)]

/-- C7: a fire command at (x, y) resolves to the active battery with
ammo remaining that is nearest to x by horizontal distance, a tie going
to the first such battery in scan order; that battery alone loses exactly
one missile and a single interceptor is created from its position toward
(x, y); with no eligible battery the command changes nothing. -/
theorem claim_C7 (x y : ℚ) (s : GameState) :
    (findBestBattery x s.batteries 0 none = none →
      (∀ b ∈ s.batteries, canFire b = false) ∧ handleCanvasClick x y s = s) ∧
    ((∀ b ∈ s.batteries, canFire b = false) → handleCanvasClick x y s = s) ∧
    (∀ i b d, findBestBattery x s.batteries 0 none = some (i, b, d) →
      s.batteries[i]? = some b ∧ canFire b = true ∧ d = fireDist x b ∧
      (∀ b' ∈ s.batteries, canFire b' = true → d ≤ fireDist x b') ∧
      (∀ j b', s.batteries[j]? = some b' → j < i → canFire b' = true →
        d < fireDist x b') ∧
      (handleCanvasClick x y s).batteries = decrementAt s.batteries i ∧
      (decrementAt s.batteries i)[i]? = some { b with missiles := b.missiles - 1 } ∧
      (∀ j, j ≠ i → (decrementAt s.batteries i)[j]? = s.batteries[j]?) ∧
      (handleCanvasClick x y s).missiles = s.missiles ++
        [{ start := b.pos, pos := b.pos, target := ⟨x, y⟩,
           speed := MISSILE_SPEED, progress := 0 }] ∧
      (handleCanvasClick x y s).rockets = s.rockets ∧
      (handleCanvasClick x y s).cities = s.cities ∧
      (handleCanvasClick x y s).score = s.score) := by
  refine ⟨?_, ?_, ?_⟩
  · intro hnone
    refine ⟨((findBest_none x s.batteries 0 none).mp hnone).2, ?_⟩
    simp [handleCanvasClick, hnone]
  · intro hall
    have hnone : findBestBattery x s.batteries 0 none = none :=
      (findBest_none x s.batteries 0 none).mpr ⟨rfl, hall⟩
    simp [handleCanvasClick, hnone]
  · intro i b d h
    have hsound := findBest_sound x s.batteries 0 none i b d h
    rcases hsound with hacc | ⟨k, hik, hget, hcf, hd⟩
    · cases hacc
    rw [show k = i by omega] at hget
    refine ⟨hget, hcf, hd, findBest_min x s.batteries 0 none i b d h, ?_, ?_, ?_, ?_, ?_, ?_, ?_, ?_⟩
    · intro j b' hj hji hcf'
      exact findBest_first x s.batteries 0 none i b d h
        (fun i0 b0 m hm => by cases hm) j b' hj (by omega) hcf'
    · simp [handleCanvasClick, h]
    · rw [decrementAt_self, hget]
      rfl
    · intro j hj
      exact decrementAt_ne s.batteries i j hj
    · simp [handleCanvasClick, h]
    · simp [handleCanvasClick, h]
    · simp [handleCanvasClick, h]
    · simp [handleCanvasClick, h]

/-- Concrete state for the C7 witness: the nearest battery is out of
ammo, and the two eligible batteries are tied in distance to x = 10; the
first of them (index 1) must win. -/
def stateC7 : GameState :=
  { rockets := [], missiles := [], explosions := [], cities := [],
    batteries := [⟨⟨9, 9⟩, true, 0, 20⟩, ⟨⟨8, 9⟩, true, 5, 20⟩, ⟨⟨12, 9⟩, true, 5, 20⟩],
    score := 0, spawnedCount := 0 }

/-- C7 witness: the tied scan resolves to battery index 1, which is
decremented and fires the interceptor. -/
theorem claim_C7_witness :
    findBestBattery 10 stateC7.batteries 0 none =
      some (1, ⟨⟨8, 9⟩, true, 5, 20⟩, 2) ∧
    (handleCanvasClick 10 3 stateC7).batteries = decrementAt stateC7.batteries 1 ∧
    (handleCanvasClick 10 3 stateC7).missiles = stateC7.missiles ++
      [{ start := ⟨8, 9⟩, pos := ⟨8, 9⟩, target := ⟨10, 3⟩,
         speed := MISSILE_SPEED, progress := 0 }] := by
  have hf : findBestBattery 10 stateC7.batteries 0 none =
      some (1, ⟨⟨8, 9⟩, true, 5, 20⟩, 2) := by
    norm_num [findBestBattery, betterBattery, canFire, fireDist, stateC7, abs]
  have h := (claim_C7 10 3 stateC7).2.2 1 ⟨⟨8, 9⟩, true, 5, 20⟩ 2 hf
  exact ⟨hf, h.2.2.2.2.2.1, h.2.2.2.2.2.2.2.2.1⟩

/-- C8: the spawn stage uses the linear difficulty multiplier
`1 + 0.15 (level − 1)`; when the budget is exhausted or the draw misses
the scaled probability nothing changes; with the trial passed but no
active target the stage is a silent no-op (count unchanged); otherwise
exactly one enemy rocket is created from a uniform x on the top edge
toward the uniformly indexed member of active cities ++ active
batteries, its speed landing in the scaled [min, max) range, and the
spawned count increments exactly then. -/
theorem claim_C8 (level width : ℚ) (rnd : FrameRnd) (spawned : Nat)
    (cs : List City) (bs : List Battery)
    (hl : 1 ≤ level) (h0t : 0 ≤ rnd.targetDraw) (h1t : rnd.targetDraw < 1)
    (h0s : 0 ≤ rnd.speedDraw) (h1s : rnd.speedDraw < 1) :
    levelMultiplier level = 1 + 0.15 * (level - 1) ∧
    (¬(spawned < MAX_ROCKETS ∧ rnd.spawnDraw < SPAWN_RATE * levelMultiplier level) →
      spawnRockets level width rnd spawned cs bs = (spawned, [])) ∧
    ((spawned < MAX_ROCKETS ∧ rnd.spawnDraw < SPAWN_RATE * levelMultiplier level) →
      activeTargets cs bs = [] →
      spawnRockets level width rnd spawned cs bs = (spawned, [])) ∧
    ((spawned < MAX_ROCKETS ∧ rnd.spawnDraw < SPAWN_RATE * levelMultiplier level) →
      activeTargets cs bs ≠ [] →
      (Int.floor (rnd.targetDraw * (activeTargets cs bs).length)).toNat <
          (activeTargets cs bs).length ∧
      spawnRockets level width rnd spawned cs bs =
        (spawned + 1,
          [{ start := ⟨rnd.startXDraw * width, 0⟩, pos := ⟨rnd.startXDraw * width, 0⟩,
             target := (activeTargets cs bs).getD
               (Int.floor (rnd.targetDraw * (activeTargets cs bs).length)).toNat default,
             speed := ROCKET_SPEED_MIN * levelMultiplier level +
               rnd.speedDraw * (ROCKET_SPEED_MAX * levelMultiplier level -
                 ROCKET_SPEED_MIN * levelMultiplier level),
             progress := 0 }]) ∧
      ROCKET_SPEED_MIN * levelMultiplier level ≤
        ROCKET_SPEED_MIN * levelMultiplier level +
          rnd.speedDraw * (ROCKET_SPEED_MAX * levelMultiplier level -
            ROCKET_SPEED_MIN * levelMultiplier level) ∧
      ROCKET_SPEED_MIN * levelMultiplier level +
          rnd.speedDraw * (ROCKET_SPEED_MAX * levelMultiplier level -
            ROCKET_SPEED_MIN * levelMultiplier level) <
        ROCKET_SPEED_MAX * levelMultiplier level) := by
  have hmult : (1 : ℚ) ≤ levelMultiplier level := by
    have h1 : (0 : ℚ) ≤ level - 1 := by linarith
    have h2 : (0 : ℚ) ≤ (level - 1) * 0.15 := by
      apply mul_nonneg h1
      norm_num
    unfold levelMultiplier
    linarith
  refine ⟨by unfold levelMultiplier; ring, ?_, ?_, ?_⟩
  · intro hfail
    simp only [spawnRockets]
    rw [if_neg hfail]
  · intro hc hemp
    simp only [spawnRockets]
    rw [if_pos hc, hemp]
    simp
  · intro hc hne
    have hlenpos : 0 < (activeTargets cs bs).length := List.length_pos.mpr hne
    have hlenq : (0 : ℚ) < ((activeTargets cs bs).length : ℚ) := by
      exact_mod_cast hlenpos
    have hfl : Int.floor (rnd.targetDraw * (activeTargets cs bs).length) <
        ((activeTargets cs bs).length : Int) := by
      apply Int.floor_lt.mpr
      push_cast
      calc rnd.targetDraw * ((activeTargets cs bs).length : ℚ)
          < 1 * ((activeTargets cs bs).length : ℚ) :=
            mul_lt_mul_of_pos_right h1t hlenq
        _ = ((activeTargets cs bs).length : ℚ) := one_mul _
    have hfl0 : 0 ≤ Int.floor (rnd.targetDraw * (activeTargets cs bs).length) :=
      Int.floor_nonneg.mpr (mul_nonneg h0t (by positivity))
    have hidx : (Int.floor (rnd.targetDraw * (activeTargets cs bs).length)).toNat <
        (activeTargets cs bs).length := by
      omega
    have hdpos : (0 : ℚ) < ROCKET_SPEED_MAX * levelMultiplier level -
        ROCKET_SPEED_MIN * levelMultiplier level := by
      have : (0 : ℚ) < (ROCKET_SPEED_MAX - ROCKET_SPEED_MIN) * levelMultiplier level := by
        apply mul_pos
        · norm_num [ROCKET_SPEED_MAX, ROCKET_SPEED_MIN]
        · linarith
      linarith [this]
    refine ⟨hidx, ?_, ?_, ?_⟩
    · simp only [spawnRockets]
      rw [if_pos hc, if_pos hlenpos]
    · have := mul_nonneg h0s (le_of_lt hdpos)
      linarith
    · have := mul_lt_mul_of_pos_right h1s hdpos
      rw [one_mul] at this
      linarith

/-- C8 witness: level 1, one active city, a passing spawn draw. -/
theorem claim_C8_witness :
    (1 : ℚ) ≤ 1 ∧ (0 : ℚ) ≤ 0.5 ∧ (0.5 : ℚ) < 1 ∧
    spawnRockets 1 100 ⟨0.005, 0.5, 0.5, 0.5⟩ 0 [⟨⟨30, 95⟩, true⟩] [] =
      (1, [{ start := ⟨0.5 * 100, 0⟩, pos := ⟨0.5 * 100, 0⟩,
             target := (activeTargets [⟨⟨30, 95⟩, true⟩] []).getD
               (Int.floor ((0.5 : ℚ) *
                 ((activeTargets [⟨⟨30, 95⟩, true⟩] []).length : ℚ))).toNat default,
             speed := ROCKET_SPEED_MIN * levelMultiplier 1 +
               0.5 * (ROCKET_SPEED_MAX * levelMultiplier 1 -
                 ROCKET_SPEED_MIN * levelMultiplier 1),
             progress := 0 }]) := by
  refine ⟨le_refl 1, by norm_num, by norm_num, ?_⟩
  have h := (claim_C8 1 100 ⟨0.005, 0.5, 0.5, 0.5⟩ 0 [⟨⟨30, 95⟩, true⟩] []
    (le_refl 1) (by norm_num) (by norm_num) (by norm_num) (by norm_num)).2.2.2
  exact (h ⟨by norm_num [MAX_ROCKETS],
    by norm_num [SPAWN_RATE, levelMultiplier]⟩ (by norm_num [activeTargets])).2.1

end NovaDefense
